import Mathlib

/-!
# Verification of the agrows code generator

Shallow embedding of the agrows RPC code generator (Go) and of the runtime
semantics of the code it generates.  Definitions are translated from the
repository source; theorems settle the frozen specification claims.

The embedding covers:
* the input AST fragment the generator consumes (declarations, fields, types);
* `extractTypeMap` / `isStruct` (type classifier) and `extractFuncInfo`
  (signature catalog builder);
* the runtime semantics of the generated server dispatcher
  (`generateServerReceiver`), of the generated client bridge wrapper and
  native proxy (`generateNewClientFunc`), and of the generated conversion
  routine (`generateJsValueToAny`);
* the tree merge / emit stage (`writeCombinedTreeAndGenerated`), with the
  external pretty-printer (go/printer + format.Source, an out-of-scope
  collaborator) taken as a parameter.
-/

namespace Agrows

/-! ## Input AST (the dst fragment consumed by the generator) -/

/-- A type expression as the generator sees it: an identifier, an inline
struct type (we keep its field names, which is all the generated reflective
code consults), or anything else. Mirrors the `dst.Expr` cases distinguished
by `isStruct`. -/
inductive TypeExpr where
  | ident (name : String)
  | structType (fieldNames : List String)
  | otherExpr
  deriving DecidableEq, Repr

/-- A field of a parameter/result list: `Names` may be empty (anonymous) or
grouped (several names sharing one type), exactly as in `dst.Field`. -/
structure Field where
  names : List String
  type : TypeExpr
  deriving DecidableEq, Repr

/-- A function declaration: name plus optional parameter and result field
lists (`fn.Type.Params` / `fn.Type.Results` may be nil in dst). -/
structure FuncDecl where
  name : String
  params : Option (List Field)
  results : Option (List Field)
  deriving DecidableEq, Repr

/-- A top-level declaration of the input file, restricted to the shapes the
generator distinguishes: function declarations, type declarations (a
`GenDecl` with `TypeSpec`s), import declarations (a `GenDecl` with import
specs, kept as path strings), and anything else. -/
inductive Decl where
  | funcDecl (fd : FuncDecl)
  | typeDecl (specs : List (String × TypeExpr))
  | importDecl (specs : List String)
  | otherDecl
  deriving DecidableEq, Repr

/-- An input file: package name and declarations in file order. -/
structure File where
  name : String
  decls : List Decl
  deriving DecidableEq, Repr

/-- `dst.Ident.IsExported`: the name starts with an upper-case letter. -/
def isExported (s : String) : Bool :=
  match s.data with
  | [] => false
  | c :: _ => c.isUpper

/-- The identifier of a type expression; the generator casts
`param.Type.(*dst.Ident)` unconditionally, so non-identifier types are
outside its domain (the cast would panic); we return `""` there. -/
def TypeExpr.identName : TypeExpr → String
  | .ident n => n
  | _ => ""

/-! ## Type classifier (`extractTypeMap`, `isStruct`) -/

/-- `extractTypeMap`: walk the file and collect every `TypeSpec`'s name and
underlying type expression, in file order. -/
def extractTypeMap (f : File) : List (String × TypeExpr) :=
  f.decls.foldl
    (fun acc d =>
      match d with
      | .typeDecl specs => acc ++ specs
      | _ => acc)
    []

/-- Lookup in the type registry. Go map assignment overwrites, so the last
binding for a name wins. -/
def lookupType (tm : List (String × TypeExpr)) (n : String) : Option TypeExpr :=
  (tm.reverse.find? (fun p => p.1 == n)).map (·.2)

/-- `isStruct`: an inline struct type is a struct; a named type is a struct
iff the registry maps it to a struct type; everything else is not. -/
def isStruct (tm : List (String × TypeExpr)) (t : TypeExpr) : Bool :=
  match t with
  | .structType _ => true
  | .ident n =>
    match lookupType tm n with
    | some (.structType _) => true
    | _ => false
  | .otherExpr => false

/-! ## Signature catalog builder (`extractFuncInfo`) -/

/-- `ParamReflectInfo`: one normalized parameter or result. Parameters always
carry a name after explosion; results may be anonymous. -/
structure ParamReflectInfo where
  name : Option String
  type : TypeExpr
  isStructP : Bool
  deriving DecidableEq, Repr

/-- `FuncInfo`: one catalog entry. -/
structure FuncInfo where
  originalIdentifier : String
  params : List ParamReflectInfo
  results : List ParamReflectInfo
  deriving DecidableEq, Repr

/-- The body of the catalog builder for one exported function: explode
grouped parameter declarations into one entry per name; keep one entry per
result field, named by the field's first name when present. Mirrors the two
nested loops of `extractFuncInfo`. -/
def funcInfoOf (tm : List (String × TypeExpr)) (fd : FuncDecl) : FuncInfo :=
  { originalIdentifier := fd.name
    params :=
      (fd.params.getD []).foldl
        (fun acc fld =>
          acc ++ fld.names.map (fun n =>
            { name := some n, type := fld.type, isStructP := isStruct tm fld.type }))
        []
    results :=
      (fd.results.getD []).foldl
        (fun acc fld =>
          acc ++ [{ name := fld.names.head?, type := fld.type,
                    isStructP := isStruct tm fld.type }])
        [] }

/-- `extractFuncInfo`: walk the declarations in file order and collect a
`FuncInfo` for every exported function declaration. -/
def extractFuncInfo (f : File) (tm : List (String × TypeExpr)) : List FuncInfo :=
  f.decls.foldl
    (fun acc d =>
      match d with
      | .funcDecl fd => if isExported fd.name then acc ++ [funcInfoOf tm fd] else acc
      | _ => acc)
    []

/-- The exported function names of a file, in declaration order. -/
def exportedFuncNames (f : File) : List String :=
  f.decls.filterMap
    (fun d =>
      match d with
      | .funcDecl fd => if isExported fd.name then some fd.name else none
      | _ => none)

/-! ## Runtime value universe

Dynamic (`interface` / `any`) values flowing through the generated code.
Integers produced by the generated conversions are the default-width `int`
and `uint` of the target (64-bit on `js/wasm`); the constructor records the
dynamic type carried by the interface value. -/

inductive GoVal where
  | intV (z : ℤ)
  | uintV (n : ℕ)
  | floatV (q : ℚ)
  | strV (s : String)
  | boolV (b : Bool)
  | nilErr
  | errV (msg : String)
  | structV (tyName : String) (fields : List (String × GoVal))
  | mapV (fields : List (String × GoVal))
  | jsFuncV
  | nilV

/-- The `err != nil` test of the generated code: an error-typed variable is
nil iff it holds the nil interface. -/
def GoVal.isNilInterface : GoVal → Bool
  | .nilErr => true
  | .nilV => true
  | _ => false

/-- The reported dynamic type of an interface value, as used by a Go type
assertion `x.(T)` against a named type `T`. A nil interface (`nilV`)
matches no type. -/
def GoVal.dynTypeName : GoVal → String
  | .intV _ => "int"
  | .uintV _ => "uint"
  | .floatV _ => "float64"
  | .strV _ => "string"
  | .boolV _ => "bool"
  | .nilErr => ""
  | .errV _ => "error"
  | .structV n _ => n
  | .mapV _ => "map"
  | .jsFuncV => "js.Value"
  | .nilV => ""

/-- Go type assertion `x.(T)`: succeeds iff the dynamic type is exactly `T`. -/
def assertGo (v : GoVal) (t : String) : Bool :=
  v.dynTypeName == t

/-- Rendering of one value under `fmt`'s `%+v` verb, for the constructors
a generated dispatcher can actually return (ints, strings, bools, errors).
`fmt`'s float formatting is not modelled exactly (no claim depends on it). -/
def renderPlusV : GoVal → String
  | .intV z => toString z
  | .uintV n => toString n
  | .floatV q => toString q
  | .strV s => s
  | .boolV b => if b then "true" else "false"
  | .nilErr => "<nil>"
  | .errV m => m
  | .structV _ _ => "\x7bstruct\x7d"
  | .mapV _ => "map"
  | .jsFuncV => "js.Value"
  | .nilV => "<nil>"

/-! ## Server dispatcher semantics (`generateServerReceiver`)

We give the runtime meaning of the generated `AgrowsReceive` function, after
the external codec collaborator has decoded the payload into
`(functionName, args)`. The implementation being dispatched to is an oracle
`impl : String → List GoVal → List GoVal` mapping the (renamed) callee and
its positional arguments to its result tuple. -/

/-- `protocol.Argument`: carries a dynamic value. -/
structure Argument where
  value : GoVal

/-- Go map lookup `args[name]` over the decoded named-argument table. -/
def lookupArg (args : List (String × Argument)) (n : String) : Option Argument :=
  (args.find? (fun p => p.1 == n)).map (·.2)

/-- The field names reflection reports for a parameter's target type
(`paramValue.NumField` / `.Field(i).Name` iterate them in order). -/
def structFieldNames (tm : List (String × TypeExpr)) (t : TypeExpr) : List String :=
  match t with
  | .structType fns => fns
  | .ident n =>
    match lookupType tm n with
    | some (.structType fns) => fns
    | _ => []
  | .otherExpr => []

/-- Outcome of a generated dispatcher case (reply string with nil error,
a generated `errors.New` error, an error value propagated from the
implementation, or a runtime panic). -/
inductive Outcome where
  | ok (reply : String)
  | errNew (msg : String)
  | errVal (e : GoVal)
  | panicked

/-- The generated per-parameter decode sequence of one dispatcher case.

For a non-struct parameter the generated code looks the name up in `args`
(missing ⇒ `errors.New("parameter <name> is not in the received arguments")`)
and then type-asserts the carried value to the declared type (failure ⇒ a
cast error; the generated `Sprintf` interpolates the zero-valued parameter
variable, which we do not model, and the declared type name).

For a struct parameter the generated code performs no lookup at all: the
`<name>ParamArg` variable it reflects on is the zero `protocol.Argument`
declared at the top of the case and never assigned. `reflect.ValueOf` of its
nil `Value` field is the invalid `reflect.Value`, so the generated
`FieldByName` call panics as soon as the target struct has a field; a
field-less target leaves the zero-valued parameter. -/
def decodeParams (tm : List (String × TypeExpr)) :
    List ParamReflectInfo → List (String × Argument) →
    Except Outcome (List GoVal)
  | [], _ => .ok []
  | p :: rest, args =>
    if p.isStructP then
      if (structFieldNames tm p.type).isEmpty then
        (fun vs => GoVal.structV p.type.identName [] :: vs) <$>
          decodeParams tm rest args
      else
        .error .panicked
    else
      match lookupArg args (p.name.getD "") with
      | none =>
        .error (.errNew
          ("parameter " ++ p.name.getD "" ++ " is not in the received arguments"))
      | some a =>
        if assertGo a.value p.type.identName then
          (fun vs => a.value :: vs) <$> decodeParams tm rest args
        else
          .error (.errNew
            ("failed to cast parameter to '" ++ p.type.identName ++ "'"))

/-- Index of the last element satisfying `p` (the generated role-assignment
loop overwrites its `firstReturnedError` / `firstReturnedString` markers on
every hit, so the last one wins). -/
def lastIdxWhere (p : α → Bool) (l : List α) : Option ℕ :=
  (l.foldl (fun acc x => (if p x then some acc.2 else acc.1, acc.2 + 1))
    ((none, 0) : Option ℕ × ℕ)).1

/-- The string content of the variable returned verbatim by the dispatcher;
its static type is `string`, so for a well-typed implementation the value is
always `strV`. -/
def getStr : GoVal → String
  | .strV s => s
  | v => renderPlusV v

/-- The generated fallback reply: every result variable rendered with `%+v`,
individually quoted, comma-joined
(`Sprintf("'%+v', '%+v', ...", ret0, ret1, ...)`). -/
def quoteJoin (vs : List GoVal) : String :=
  String.intercalate ", " (vs.map (fun v => "'" ++ renderPlusV v ++ "'"))

/-- The destructuring `ret0, str1, err2, ... := agrows_F(...)` of a call's
results into one variable per declared result (a well-typed implementation
returns exactly `n` values; the padding default is unreachable then). -/
def padResults (n : ℕ) (rets : List GoVal) : List GoVal :=
  (List.range n).map (fun i => rets.getD i .nilV)

/-- The reply-formatting tail of a generated case with a non-empty result
list: destructure the call's results, abort with the last error-typed result
if non-nil, else return the last string-typed result verbatim, else quote
and join every result variable. -/
def formatReply (results : List ParamReflectInfo) (rets : List GoVal) : Outcome :=
  let vals := padResults results.length rets
  let lastErr := lastIdxWhere (fun r => r.type.identName == "error") results
  let lastStr := lastIdxWhere (fun r => r.type.identName == "string") results
  match lastErr with
  | some i =>
    if (vals.getD i .nilV).isNilInterface then
      match lastStr with
      | some j => .ok (getStr (vals.getD j .nilV))
      | none => .ok (quoteJoin vals)
    else
      .errVal (vals.getD i .nilV)
  | none =>
    match lastStr with
    | some j => .ok (getStr (vals.getD j .nilV))
    | none => .ok (quoteJoin vals)

/-- `modifiedFunctionFormat`: the rename applied to every exported input
function (`agrows_%s`). -/
def modifiedName (n : String) : String := "agrows_" ++ n

/-- One generated `switch` case: decode the parameters, invoke the renamed
implementation positionally, format the reply. Also records the calls made
to the implementation (used to state non-invocation). -/
def runCase (tm : List (String × TypeExpr)) (info : FuncInfo)
    (impl : String → List GoVal → List GoVal) (args : List (String × Argument)) :
    Outcome × List (String × List GoVal) :=
  match decodeParams tm info.params args with
  | .error o => (o, [])
  | .ok vals =>
    let callee := modifiedName info.originalIdentifier
    let rets := impl callee vals
    if info.results.isEmpty then
      (.ok "", [(callee, vals)])
    else
      (formatReply info.results rets, [(callee, vals)])

/-- The generated dispatcher, after envelope decoding: route on the decoded
function name over the cases generated one per catalog entry (a Go `switch`
takes the first matching case), falling through to the generated default
case for unknown names. -/
def dispatch (tm : List (String × TypeExpr)) (infos : List FuncInfo)
    (impl : String → List GoVal → List GoVal)
    (functionName : String) (args : List (String × Argument)) :
    Outcome × List (String × List GoVal) :=
  match infos.find? (fun i => i.originalIdentifier == functionName) with
  | some info => runCase tm info impl args
  | none =>
    (.errNew ("unknown function '" ++ functionName ++ "'"), [])

/-- The keys of the generated `switch` cases, in generation order: one
`case "<name>"` per catalog entry. -/
def serverCaseKeys (infos : List FuncInfo) : List String :=
  infos.map (·.originalIdentifier)

/-! ## Client-side semantics

The generated conversion routine (`generateJsValueToAny`) and the generated
bridge wrapper / native proxy pair (`generateNewClientFunc`). -/

/-- `reflect.Kind`, restricted to the kinds the generated code
distinguishes. -/
inductive RKind where
  | rint | rint8 | rint16 | rint32 | rint64
  | ruint | ruint8 | ruint16 | ruint32 | ruint64
  | rfloat32 | rfloat64
  | rbool | rstring | rstruct | rinterface | rother
  deriving DecidableEq, Repr

def isSignedIntKind : RKind → Bool
  | .rint | .rint8 | .rint16 | .rint32 | .rint64 => true
  | _ => false

def isUnsignedIntKind : RKind → Bool
  | .ruint | .ruint8 | .ruint16 | .ruint32 | .ruint64 => true
  | _ => false

def isFloatKind : RKind → Bool
  | .rfloat32 | .rfloat64 => true
  | _ => false

/-- The kind of a predeclared Go type name. -/
def builtinKind : String → Option RKind
  | "int" => some .rint
  | "int8" => some .rint8
  | "int16" => some .rint16
  | "int32" => some .rint32
  | "int64" => some .rint64
  | "uint" => some .ruint
  | "uint8" => some .ruint8
  | "uint16" => some .ruint16
  | "uint32" => some .ruint32
  | "uint64" => some .ruint64
  | "float32" => some .rfloat32
  | "float64" => some .rfloat64
  | "bool" => some .rbool
  | "string" => some .rstring
  | _ => none

/-- A `reflect.Type` as the generated code consults it: its name and kind. -/
structure RType where
  name : String
  kind : RKind
  deriving DecidableEq, Repr

/-- `reflect.TypeOf((*T)(nil)).Elem()` for a named type `T`: predeclared
names have their builtin kind; a registry name declared as a struct has kind
Struct; a registry alias of a predeclared type has that underlying kind. -/
def reflectTypeOf (tm : List (String × TypeExpr)) (t : String) : RType :=
  match builtinKind t with
  | some k => ⟨t, k⟩
  | none =>
    match lookupType tm t with
    | some (.structType _) => ⟨t, .rstruct⟩
    | some (.ident u) => ⟨t, (builtinKind u).getD .rother⟩
    | _ => ⟨t, .rother⟩

/-- The `any` target used by the recursive call of the conversion routine
(`reflect.TypeOf((*any)(nil)).Elem()`). -/
def anyRType : RType := ⟨"interface", .rinterface⟩

/-- A weakly-typed bridge (`js.Value`) value, by its dynamic tag. -/
inductive JsValue where
  | boolean (b : Bool)
  | number (q : ℚ)
  | str (s : String)
  | object (fields : List (String × JsValue))
  | function
  | undefined
  | null
  | otherJs

/-- `syscall/js`'s `Value.Int()`: the numeric value truncated toward zero. -/
def jsInt (q : ℚ) : ℤ := q.num.tdiv (q.den : ℤ)

/-- The `uint(...)` conversion applied to that truncation (64-bit `uint` on
the `js/wasm` target, wrapping). -/
def jsUint (q : ℚ) : ℕ := ((jsInt q) % (2 ^ 64 : ℤ)).toNat

mutual

/-- The generated `jsValueToAny` routine: convert a bridge value to the
required static type.

The object branch recursively converts every own key at the unconstrained
`any` type, then marshals the resulting table to JSON and unmarshals it into
a fresh instance of the target type; the JSON round trip (an external
interchange codec) is modelled as transferring the converted fields into the
target's shape, failing when the target is not a struct or interface. -/
def jsValueToAny (v : JsValue) (target : RType) : Except String GoVal :=
  match v with
  | .boolean b => .ok (.boolV b)
  | .number q =>
    match target.kind with
    | .rint | .rint8 | .rint16 | .rint32 | .rint64 => .ok (.intV (jsInt q))
    | .ruint | .ruint8 | .ruint16 | .ruint32 | .ruint64 => .ok (.uintV (jsUint q))
    | .rfloat32 | .rfloat64 => .ok (.floatV q)
    | _ => .ok (.floatV q)
  | .str s => .ok (.strV s)
  | .object fields =>
    match jsFieldsToAny fields with
    | .error e => .error e
    | .ok conv =>
      match target.kind with
      | .rstruct => .ok (.structV target.name conv)
      | .rinterface => .ok (.mapV conv)
      | _ => .error "failed to unmarshal json to target type"
  | .function => .ok .jsFuncV
  | .undefined => .ok .nilV
  | .null => .ok .nilV
  | .otherJs => .error "unsupported js value type"

/-- The key-enumeration loop of the object branch: convert each value at an
unconstrained type, propagating the first failure. -/
def jsFieldsToAny : List (String × JsValue) → Except String (List (String × GoVal))
  | [] => .ok []
  | (k, v) :: rest =>
    match jsValueToAny v anyRType with
    | .error e => .error e
    | .ok a =>
      match jsFieldsToAny rest with
      | .error e => .error e
      | .ok r => .ok ((k, a) :: r)

end

/-- Outcome of the generated bridge wrapper: a JS `Error` value returned to
the bridge caller, or a call through to the native proxy with the converted
positional arguments. -/
inductive WrapperOutcome where
  | jsError (msg : String)
  | callNative (fnName : String) (args : List GoVal)

/-- The per-position conversion loop of the generated wrapper: convert
`p[i]` against the declared type, then type-assert the `any` result to that
declared type; either failure aborts with a descriptive JS error. -/
def wrapperConvert (tm : List (String × TypeExpr)) :
    List (ParamReflectInfo × JsValue) → Except String (List GoVal)
  | [] => .ok []
  | (p, v) :: rest =>
    let t := p.type.identName
    match jsValueToAny v (reflectTypeOf tm t) with
    | .error e => .error ("failed to make go type '" ++ t ++ "' from js value: " ++ e)
    | .ok a =>
      if assertGo a t then
        match wrapperConvert tm rest with
        | .ok vs => .ok (a :: vs)
        | .error e => .error e
      else
        .error ("parameter '" ++ p.name.getD "" ++ "' is not in the received arguments")

/-- The generated bridge wrapper `<name>Wrapper(this, p)`: validate the
argument count, convert each positional value, then call through to the
native proxy. -/
def wrapperRun (tm : List (String × TypeExpr)) (info : FuncInfo)
    (p : List JsValue) : WrapperOutcome :=
  if p.length ≠ info.params.length then
    .jsError ("expected " ++ toString info.params.length ++ " arguments, got "
      ++ toString p.length)
  else
    match wrapperConvert tm (info.params.zip p) with
    | .error m => .jsError m
    | .ok args => .callNative info.originalIdentifier args

/-- The names of the stub pair `generateNewClientFunc` emits for one catalog
entry: the native proxy keeps the original name, the bridge wrapper appends
`Wrapper` (`wrapperFunctionFormat`). -/
structure ClientStub where
  proxyName : String
  wrapperName : String
  deriving DecidableEq, Repr

def wrapperFunctionName (n : String) : String := n ++ "Wrapper"

/-- The client generation loop: one stub pair per catalog entry, in catalog
order. -/
def generateClientStubs (infos : List FuncInfo) : List ClientStub :=
  infos.map (fun i => ⟨i.originalIdentifier, wrapperFunctionName i.originalIdentifier⟩)

/-! ## Tree merge / emit (`writeCombinedTreeAndGenerated`)

The external pretty-printer (go/printer followed by format.Source) is taken
as a parameter `render`; the wall-clock date and time interpolated into the
provenance header are explicit inputs. -/

inductive GenType where
  | server
  | client
  deriving DecidableEq, Repr

def Decl.isImport : Decl → Bool
  | .importDecl _ => true
  | _ => false

/-- The `filePrefix` the emitter writes before the formatted file: the
client build tag for the client variant, then the provenance comment with
the generation date and time. -/
def provenanceHeader (gt : GenType) (date clock : String) : String :=
  (match gt with
   | .server => ""
   | .client => "//go:build js && wasm && client\n") ++
  "/*\n\tCode generated by agrows. DO NOT EDIT :)\n\tThis code was generated on "
  ++ date ++ " at " ++ clock ++
  "\n\tAny changes made to this file will be lost\n\t*/\n\t"

/-- All import specs of a declaration list, in order. -/
def importSpecsOf (decls : List Decl) : List String :=
  decls.foldl
    (fun acc d =>
      match d with
      | .importDecl s => acc ++ s
      | _ => acc)
    []

/-- The merged output unit: the client variant renames the package to
`main` and keeps only generated imports; the server variant keeps source
imports followed by generated ones; the rebuilt import declaration is
prepended to all non-import declarations (source first, then generated). -/
def combineTree (tree gen : File) (gt : GenType) : File :=
  let treeName := match gt with | .client => "main" | .server => tree.name
  let sourceImports := importSpecsOf tree.decls
  let genImports := importSpecsOf gen.decls
  let declsWithoutImports := (tree.decls ++ gen.decls).filter (fun d => !d.isImport)
  let combinedImports :=
    match gt with
    | .server => sourceImports ++ genImports
    | .client => genImports
  ⟨treeName, .importDecl combinedImports :: declsWithoutImports⟩

/-- The bytes written for one generation run: provenance header followed by
the rendering of the merged tree. -/
def writeCombinedOutput (render : File → String) (tree gen : File)
    (gt : GenType) (date clock : String) : String :=
  provenanceHeader gt date clock ++ render (combineTree tree gen gt)

/-! ## Helper lemmas -/

/-- The parameter explosion of `funcInfoOf`, as a `flatMap`. -/
theorem funcInfoOf_params (tm : List (String × TypeExpr)) (fd : FuncDecl) :
    (funcInfoOf tm fd).params
      = (fd.params.getD []).flatMap (fun fld =>
          fld.names.map (fun n =>
            { name := some n, type := fld.type, isStructP := isStruct tm fld.type })) := by
  show List.foldl _ [] _ = _
  generalize fd.params.getD [] = flds
  suffices h : ∀ (flds : List Field) (acc : List ParamReflectInfo),
      List.foldl (fun acc fld =>
        acc ++ fld.names.map (fun n =>
          ({ name := some n, type := fld.type,
             isStructP := isStruct tm fld.type } : ParamReflectInfo))) acc flds
      = acc ++ flds.flatMap (fun fld =>
          fld.names.map (fun n =>
            { name := some n, type := fld.type, isStructP := isStruct tm fld.type })) by
    simpa using h flds []
  intro flds
  induction flds with
  | nil => intro acc; simp
  | cons fld flds ih => intro acc; simp [ih, List.append_assoc]

/-- The per-field result collection of `funcInfoOf`, as a `map`. -/
theorem funcInfoOf_results (tm : List (String × TypeExpr)) (fd : FuncDecl) :
    (funcInfoOf tm fd).results
      = (fd.results.getD []).map (fun fld =>
          { name := fld.names.head?, type := fld.type,
            isStructP := isStruct tm fld.type }) := by
  show List.foldl _ [] _ = _
  generalize fd.results.getD [] = flds
  suffices h : ∀ (flds : List Field) (acc : List ParamReflectInfo),
      List.foldl (fun acc fld =>
        acc ++ [({ name := fld.names.head?, type := fld.type,
                   isStructP := isStruct tm fld.type } : ParamReflectInfo)]) acc flds
      = acc ++ flds.map (fun fld =>
          { name := fld.names.head?, type := fld.type,
            isStructP := isStruct tm fld.type }) by
    simpa using h flds []
  intro flds
  induction flds with
  | nil => intro acc; simp
  | cons fld flds ih => intro acc; simp [ih]

/-- The traversal of `extractFuncInfo`, as a `filterMap` over the
declarations in file order. -/
theorem extractFuncInfo_eq (f : File) (tm : List (String × TypeExpr)) :
    extractFuncInfo f tm
      = f.decls.filterMap (fun d =>
          match d with
          | .funcDecl fd =>
            if isExported fd.name then some (funcInfoOf tm fd) else none
          | _ => none) := by
  show List.foldl _ [] _ = _
  suffices h : ∀ (ds : List Decl) (acc : List FuncInfo),
      List.foldl (fun acc d =>
        match d with
        | .funcDecl fd =>
          if isExported fd.name then acc ++ [funcInfoOf tm fd] else acc
        | _ => acc) acc ds
      = acc ++ ds.filterMap (fun d =>
          match d with
          | .funcDecl fd =>
            if isExported fd.name then some (funcInfoOf tm fd) else none
          | _ => none) by
    simpa using h f.decls []
  intro ds
  induction ds with
  | nil => intro acc; simp
  | cons d ds ih =>
    intro acc
    cases d with
    | funcDecl fd =>
      by_cases h : isExported fd.name <;> simp [h, ih]
    | typeDecl specs => simp [ih]
    | importDecl specs => simp [ih]
    | otherDecl => simp [ih]

/-- The catalog lists exactly the exported function names, in declaration
order. -/
theorem extractFuncInfo_map_name (f : File) (tm : List (String × TypeExpr)) :
    (extractFuncInfo f tm).map (·.originalIdentifier) = exportedFuncNames f := by
  rw [extractFuncInfo_eq, List.map_filterMap, exportedFuncNames]
  congr 1
  funext d
  cases d with
  | funcDecl fd => by_cases h : isExported fd.name <;> simp [h, funcInfoOf]
  | typeDecl specs => rfl
  | importDecl specs => rfl
  | otherDecl => rfl

/-- Recursive characterization of the overwrite loop: the index recorded
starting the counter at `n`. -/
def lastIdxFrom (p : α → Bool) (n : ℕ) : List α → Option ℕ
  | [] => none
  | a :: as =>
    match lastIdxFrom p (n + 1) as with
    | some i => some i
    | none => if p a then some n else none

theorem lastIdxWhere_foldl_aux (p : α → Bool) :
    ∀ (l : List α) (o : Option ℕ) (n : ℕ),
      (List.foldl (fun acc x => (if p x then some acc.2 else acc.1, acc.2 + 1))
        ((o, n) : Option ℕ × ℕ) l)
      = ((lastIdxFrom p n l).elim o some, n + l.length) := by
  intro l
  induction l with
  | nil => intro o n; simp [lastIdxFrom]
  | cons a as ih =>
    intro o n
    simp only [List.foldl_cons, ih]
    by_cases h : p a = true
    · simp only [h, if_pos, lastIdxFrom]
      cases has : lastIdxFrom p (n + 1) as <;>
        simp [List.length_cons, Nat.add_assoc, Nat.add_comm 1]
    · rw [if_neg h]
      simp only [lastIdxFrom]
      cases has : lastIdxFrom p (n + 1) as <;>
        simp [has, h, List.length_cons, Nat.add_assoc, Nat.add_comm 1]

/-- The overwrite loop records the index of the last matching element. -/
theorem lastIdxWhere_eq_lastIdxFrom (p : α → Bool) (l : List α) :
    lastIdxWhere p l = lastIdxFrom p 0 l := by
  rw [lastIdxWhere, lastIdxWhere_foldl_aux]
  cases lastIdxFrom p 0 l <;> rfl

theorem lastIdxFrom_of_forall_not (p : α → Bool) :
    ∀ (l : List α) (n : ℕ), (∀ x ∈ l, p x = false) → lastIdxFrom p n l = none := by
  intro l
  induction l with
  | nil => intro n _; rfl
  | cons a as ih =>
    intro n h
    have ha : p a = false := h a (by simp)
    have has : lastIdxFrom p (n + 1) as = none :=
      ih (n + 1) (fun x hx => h x (by simp [hx]))
    simp [lastIdxFrom, has, ha]

theorem lastIdxFrom_append (p : α → Bool) :
    ∀ (xs ys : List α) (n : ℕ),
      lastIdxFrom p n (xs ++ ys)
      = ((lastIdxFrom p (n + xs.length) ys).elim (lastIdxFrom p n xs) some) := by
  intro xs
  induction xs with
  | nil =>
    intro ys n
    simp only [List.nil_append, List.length_nil, Nat.add_zero]
    cases h : lastIdxFrom p n ys <;> simp [h, lastIdxFrom]
  | cons a xs ih =>
    intro ys n
    rw [List.cons_append]
    simp only [lastIdxFrom, ih ys (n + 1), List.length_cons]
    have harith : n + 1 + xs.length = n + (xs.length + 1) := by omega
    rw [harith]
    cases h : lastIdxFrom p (n + (xs.length + 1)) ys <;>
      cases h2 : lastIdxFrom p (n + 1) xs <;> simp [lastIdxFrom, h2]

/-- The loop selects the position of the last matching element: if `r`
matches and nothing after it does, the recorded index is `rs.length`. -/
theorem lastIdxWhere_last_match (p : α → Bool) (rs rs' : List α) (r : α)
    (hr : p r = true) (hrs' : ∀ x ∈ rs', p x = false) :
    lastIdxWhere p (rs ++ r :: rs') = some rs.length := by
  rw [lastIdxWhere_eq_lastIdxFrom, lastIdxFrom_append]
  have h1 : lastIdxFrom p (rs.length + 1) rs' = none :=
    lastIdxFrom_of_forall_not p rs' _ hrs'
  have h2 : lastIdxFrom p (0 + rs.length + 1) rs' = none :=
    lastIdxFrom_of_forall_not p rs' _ hrs'
  simp [lastIdxFrom, h1, h2, hr]

/-- If no element matches, the loop records nothing. -/
theorem lastIdxWhere_of_forall_not (p : α → Bool) (l : List α)
    (h : ∀ x ∈ l, p x = false) : lastIdxWhere p l = none := by
  rw [lastIdxWhere_eq_lastIdxFrom]
  exact lastIdxFrom_of_forall_not p l 0 h

/-- Unfolding of the dispatcher on a matched case whose parameter decoding
succeeds: the outcome is the formatted reply of the invoked implementation,
and exactly one call is made. -/
theorem dispatch_formatReply (tm : List (String × TypeExpr)) (infos : List FuncInfo)
    (impl : String → List GoVal → List GoVal) (fname : String)
    (args : List (String × Argument)) (info : FuncInfo) (vals : List GoVal)
    (h1 : infos.find? (fun i => i.originalIdentifier == fname) = some info)
    (h2 : decodeParams tm info.params args = .ok vals)
    (hne : info.results ≠ []) :
    dispatch tm infos impl fname args
      = (formatReply info.results (impl (modifiedName info.originalIdentifier) vals),
         [(modifiedName info.originalIdentifier, vals)]) := by
  have hres : info.results.isEmpty = false := by
    cases hr : info.results with
    | nil => exact absurd hr hne
    | cons a l => rfl
  unfold dispatch runCase
  rw [h1]
  dsimp only
  rw [h2]
  simp [hres]

/-! ## Concrete fixtures (used by witnesses and counterexamples) -/

/-- A small input file in the shape of the README example: a struct type,
three exported functions (one with grouped parameters, one with a struct
parameter) and an unexported one. -/
def exFile : File :=
  ⟨"functions",
   [ .importDecl ["fmt"],
     .typeDecl [("CalcInput", .structType ["A", "B"])],
     .funcDecl ⟨"SayHello", some [⟨["name"], .ident "string"⟩],
       some [⟨[], .ident "string"⟩]⟩,
     .funcDecl ⟨"helper", some [], none⟩,
     .funcDecl ⟨"Sum", some [⟨["a", "b"], .ident "int"⟩],
       some [⟨[], .ident "int"⟩, ⟨[], .ident "error"⟩]⟩,
     .funcDecl ⟨"CrazyMath", some [⟨["inp"], .ident "CalcInput"⟩],
       some [⟨[], .ident "string"⟩]⟩ ]⟩

def exTypeMap : List (String × TypeExpr) := extractTypeMap exFile

def exCatalog : List FuncInfo := extractFuncInfo exFile exTypeMap

/-- The integer carried by a dynamic value (0 for other shapes). -/
def goValInt : GoVal → ℤ
  | .intV z => z
  | _ => 0

/-- A concrete implementation oracle for the fixture catalog. -/
def exImpl : String → List GoVal → List GoVal := fun callee vs =>
  if callee == "agrows_SayHello" then
    [.strV ("Hello, " ++ getStr (vs.getD 0 .nilV))]
  else if callee == "agrows_Sum" then
    [.intV (goValInt (vs.getD 0 .nilV) + goValInt (vs.getD 1 .nilV)), .nilErr]
  else
    [.strV "ok"]

/-- The decoded named-argument table `{a:2, b:3}` of the spec's Sum
scenario. -/
def sumArgs : List (String × Argument) := [("a", ⟨.intV 2⟩), ("b", ⟨.intV 3⟩)]

/-- The result shape of the fixture's `Sum` function. -/
def sumResults : List ParamReflectInfo :=
  [⟨none, .ident "int", false⟩, ⟨none, .ident "error", false⟩]

/-- The catalog entry of the fixture's `SayHello` function. -/
def infoSayHello : FuncInfo :=
  ⟨"SayHello", [⟨some "name", .ident "string", false⟩],
   [⟨none, .ident "string", false⟩]⟩

/-! ## Claims -/

/-- **C7**: the catalog builder, walking declarations in file order,
produces for each publicly visible function one `ParamInfo` per declared
parameter name (grouped parameter declarations exploded) and one
`ResultInfo` per declared result field (anonymous results carrying no
name), with output order equal to declaration order. -/
theorem c7_catalog_builder_order_and_shape (f : File) (tm : List (String × TypeExpr)) :
    extractFuncInfo f tm
      = f.decls.filterMap (fun d =>
          match d with
          | .funcDecl fd =>
            if isExported fd.name then
              some { originalIdentifier := fd.name
                     params := (fd.params.getD []).flatMap (fun fld =>
                       fld.names.map (fun n =>
                         { name := some n, type := fld.type,
                           isStructP := isStruct tm fld.type }))
                     results := (fd.results.getD []).map (fun fld =>
                       { name := fld.names.head?, type := fld.type,
                         isStructP := isStruct tm fld.type }) }
            else none
          | _ => none) := by
  rw [extractFuncInfo_eq]
  congr 1
  funext d
  cases d with
  | funcDecl fd =>
    by_cases h : isExported fd.name
    · simp only [h, if_true]
      rw [← funcInfoOf_params tm fd, ← funcInfoOf_results tm fd]
      rfl
    · simp [h]
  | typeDecl specs => rfl
  | importDecl specs => rfl
  | otherDecl => rfl

/-- **C1**: every exported input function yields exactly one dispatcher
case keyed by its original name, cases in catalog (declaration) order, and
exactly one client stub pair (native proxy plus bridge wrapper). -/
theorem c1_one_case_and_one_stub_per_function (f : File) (tm : List (String × TypeExpr))
    (h : (exportedFuncNames f).Nodup) :
    serverCaseKeys (extractFuncInfo f tm) = exportedFuncNames f
    ∧ (∀ n ∈ exportedFuncNames f, (serverCaseKeys (extractFuncInfo f tm)).count n = 1)
    ∧ generateClientStubs (extractFuncInfo f tm)
        = (exportedFuncNames f).map (fun n => ⟨n, wrapperFunctionName n⟩)
    ∧ (∀ n ∈ exportedFuncNames f,
        ((generateClientStubs (extractFuncInfo f tm)).map (·.proxyName)).count n = 1) := by
  have hkeys : serverCaseKeys (extractFuncInfo f tm) = exportedFuncNames f :=
    extractFuncInfo_map_name f tm
  have hstubs : (generateClientStubs (extractFuncInfo f tm)).map (·.proxyName)
      = exportedFuncNames f := by
    show ((extractFuncInfo f tm).map _).map _ = _
    rw [List.map_map]
    exact extractFuncInfo_map_name f tm
  refine ⟨hkeys, ?_, ?_, ?_⟩
  · intro n hn
    rw [hkeys]
    exact List.count_eq_one_of_mem h hn
  · show (extractFuncInfo f tm).map _ = _
    rw [← extractFuncInfo_map_name f tm, List.map_map]
    rfl
  · intro n hn
    rw [hstubs]
    exact List.count_eq_one_of_mem h hn

/-- Witness for C1 at the concrete fixture file. -/
theorem c1_witness :
    (exportedFuncNames exFile).Nodup
    ∧ serverCaseKeys (extractFuncInfo exFile exTypeMap) = ["SayHello", "Sum", "CrazyMath"]
    ∧ generateClientStubs (extractFuncInfo exFile exTypeMap)
        = [⟨"SayHello", "SayHelloWrapper"⟩, ⟨"Sum", "SumWrapper"⟩,
           ⟨"CrazyMath", "CrazyMathWrapper"⟩] := by
  have h := c1_one_case_and_one_stub_per_function exFile exTypeMap (by decide)
  refine ⟨by decide, ?_, ?_⟩
  · rw [h.1]; rfl
  · rw [h.2.2.1]; rfl

/-- **C2** (code evaluated at the failing input): for the aggregate
parameter `inp` of the fixture's `CrazyMath`, the generated dispatcher given
an empty named-argument table performs no presence check at all — the
struct path reflects on the zero-valued, never-assigned `inpParamArg` and
panics inside `FieldByName` — instead of returning the error naming `inp`
that the per-parameter rule promises (and that the primitive path of `Sum`
does return). -/
theorem c2_aggregate_param_missing_key_not_checked :
    dispatch exTypeMap exCatalog exImpl "CrazyMath" [] = (.panicked, [])
    ∧ Outcome.panicked ≠ Outcome.errNew "parameter inp is not in the received arguments"
    ∧ dispatch exTypeMap exCatalog exImpl "Sum" []
        = (.errNew "parameter a is not in the received arguments", []) := by
  refine ⟨rfl, ?_, rfl⟩
  intro hcontra
  exact Outcome.noConfusion hcontra

/-- Modelled from the spec claim (C3): the fallback reply with only the
non-error results rendered, quoted and comma-joined. Written from the
claim's words, to be compared with the code's `formatReply`. -/
def claimNonErrorReply (results : List ParamReflectInfo) (rets : List GoVal) : String :=
  quoteJoin (((padResults results.length rets).zip results).filterMap
    (fun pr => if pr.2.type.identName == "error" then none else some pr.1))

/-- **C3** (counterexample): for `Sum(a,b int) (int, error)` returning
`(5, nil)`, the generated dispatcher's reply is `'5', '<nil>'` — the nil
error-role result is rendered into the reply — while the claim's
"all non-error results (and only those)" formatting yields `'5'`. -/
theorem c3_counterexample_error_result_in_reply :
    (dispatch exTypeMap exCatalog exImpl "Sum" sumArgs).1 = .ok "'5', '<nil>'"
    ∧ claimNonErrorReply sumResults [.intV 5, .nilErr] = "'5'"
    ∧ ("'5', '<nil>'" : String) ≠ "'5'" := by
  refine ⟨rfl, rfl, by decide⟩

/-- **C3 (amended)**: the dispatcher's reply formatting: a non-nil last
error-role result aborts with `("", error)`; else an existing (last)
string-role result is returned verbatim; else ALL result variables —
error-typed ones included, a nil error rendering as `<nil>` — are rendered
with `%+v`, individually quoted, comma-joined, returned with a nil error. -/
theorem c3_reply_formatting_amended (tm : List (String × TypeExpr))
    (infos : List FuncInfo) (impl : String → List GoVal → List GoVal)
    (fname : String) (args : List (String × Argument)) (info : FuncInfo)
    (vals rets : List GoVal)
    (h1 : infos.find? (fun i => i.originalIdentifier == fname) = some info)
    (h2 : decodeParams tm info.params args = .ok vals)
    (hne : info.results ≠ [])
    (hrets : rets = padResults info.results.length
        (impl (modifiedName info.originalIdentifier) vals)) :
    (∀ i, lastIdxWhere (fun r => r.type.identName == "error") info.results = some i →
        (rets.getD i .nilV).isNilInterface = false →
        dispatch tm infos impl fname args
          = (.errVal (rets.getD i .nilV),
             [(modifiedName info.originalIdentifier, vals)]))
    ∧ (∀ i j, lastIdxWhere (fun r => r.type.identName == "error") info.results = some i →
        (rets.getD i .nilV).isNilInterface = true →
        lastIdxWhere (fun r => r.type.identName == "string") info.results = some j →
        dispatch tm infos impl fname args
          = (.ok (getStr (rets.getD j .nilV)),
             [(modifiedName info.originalIdentifier, vals)]))
    ∧ (∀ i, lastIdxWhere (fun r => r.type.identName == "error") info.results = some i →
        (rets.getD i .nilV).isNilInterface = true →
        lastIdxWhere (fun r => r.type.identName == "string") info.results = none →
        dispatch tm infos impl fname args
          = (.ok (quoteJoin rets), [(modifiedName info.originalIdentifier, vals)]))
    ∧ (∀ j, lastIdxWhere (fun r => r.type.identName == "error") info.results = none →
        lastIdxWhere (fun r => r.type.identName == "string") info.results = some j →
        dispatch tm infos impl fname args
          = (.ok (getStr (rets.getD j .nilV)),
             [(modifiedName info.originalIdentifier, vals)]))
    ∧ (lastIdxWhere (fun r => r.type.identName == "error") info.results = none →
        lastIdxWhere (fun r => r.type.identName == "string") info.results = none →
        dispatch tm infos impl fname args
          = (.ok (quoteJoin rets), [(modifiedName info.originalIdentifier, vals)])) := by
  have hd := dispatch_formatReply tm infos impl fname args info vals h1 h2 hne
  subst hrets
  refine ⟨?_, ?_, ?_, ?_, ?_⟩
  · intro i herr hnonnil
    rw [hd]
    unfold formatReply
    rw [herr]
    simp only [List.getD_eq_getElem?_getD] at hnonnil
    simp [hnonnil]
  · intro i j herr hnil hstr
    rw [hd]
    unfold formatReply
    rw [herr]
    simp only [List.getD_eq_getElem?_getD] at hnil
    simp [hnil, hstr]
  · intro i herr hnil hstr
    rw [hd]
    unfold formatReply
    rw [herr]
    simp only [List.getD_eq_getElem?_getD] at hnil
    simp [hnil, hstr]
  · intro j herr hstr
    rw [hd]
    unfold formatReply
    rw [herr]
    simp [hstr]
  · intro herr hstr
    rw [hd]
    unfold formatReply
    rw [herr]
    simp [hstr]

/-- Witness for C3 (amended) at the Sum scenario: `{a:2, b:3}` formats to
the quoted join of all result variables, including the nil error. -/
theorem c3_witness :
    dispatch exTypeMap exCatalog exImpl "Sum" sumArgs
      = (.ok "'5', '<nil>'", [("agrows_Sum", [.intV 2, .intV 3])]) := by
  have h := (c3_reply_formatting_amended exTypeMap exCatalog exImpl "Sum" sumArgs
      (exCatalog.getD 1 infoSayHello) [.intV 2, .intV 3]
      [.intV 5, .nilErr] rfl rfl (by decide) rfl).2.2.1
  exact h 1 rfl rfl rfl

/-- **C4**: an unregistered function name always produces an error whose
message contains that name, and no catalog function is invoked. -/
theorem c4_unknown_function_errors (tm : List (String × TypeExpr))
    (infos : List FuncInfo) (impl : String → List GoVal → List GoVal)
    (fname : String) (args : List (String × Argument))
    (h : ∀ i ∈ infos, i.originalIdentifier ≠ fname) :
    dispatch tm infos impl fname args
      = (.errNew ("unknown function '" ++ fname ++ "'"), [])
    ∧ (∃ pre post : String,
        "unknown function '" ++ fname ++ "'" = pre ++ fname ++ post) := by
  have hfind : infos.find? (fun i => i.originalIdentifier == fname) = none := by
    rw [List.find?_eq_none]
    intro i hi
    simpa using h i hi
  constructor
  · unfold dispatch
    rw [hfind]
  · exact ⟨"unknown function '", "'", rfl⟩

/-- Witness for C4: the fixture catalog dispatched on `Greet`. -/
theorem c4_witness :
    dispatch exTypeMap exCatalog exImpl "Greet" []
      = (.errNew "unknown function 'Greet'", []) := by
  exact (c4_unknown_function_errors exTypeMap exCatalog exImpl "Greet" [] (by decide)).1

/-- **C5**: a bridge wrapper invoked with an argument array whose length is
not the declared parameter count returns an error naming the expected and
actual counts and never calls through to the native proxy. -/
theorem c5_wrapper_arity_mismatch (tm : List (String × TypeExpr))
    (info : FuncInfo) (p : List JsValue)
    (h : p.length ≠ info.params.length) :
    wrapperRun tm info p
      = .jsError ("expected " ++ toString info.params.length ++ " arguments, got "
          ++ toString p.length)
    ∧ ∀ n args, wrapperRun tm info p ≠ .callNative n args := by
  constructor
  · unfold wrapperRun
    rw [if_pos h]
  · intro n args hcontra
    unfold wrapperRun at hcontra
    rw [if_pos h] at hcontra
    exact WrapperOutcome.noConfusion hcontra

/-- Witness for C5: `SayHello` (one parameter) invoked with zero and with
two bridge arguments. -/
theorem c5_witness :
    ([] : List JsValue).length ≠ infoSayHello.params.length
    ∧ wrapperRun [] infoSayHello [] = .jsError "expected 1 arguments, got 0"
    ∧ wrapperRun [] infoSayHello [.str "a", .str "b"]
        = .jsError "expected 1 arguments, got 2" := by
  refine ⟨by decide, ?_, ?_⟩
  · exact (c5_wrapper_arity_mismatch [] infoSayHello [] (by decide)).1
  · exact (c5_wrapper_arity_mismatch [] infoSayHello [.str "a", .str "b"] (by decide)).1

/-- **C6**: the conversion routine on a numeric bridge value inspects the
target's kind: signed and unsigned integer kinds truncate toward zero,
floating kinds keep the value, and every other kind falls to the default
branch, which is the floating conversion. -/
theorem c6_numeric_conversion_by_kind (q : ℚ) (target : RType) :
    (isSignedIntKind target.kind = true →
        jsValueToAny (.number q) target = .ok (.intV (jsInt q)))
    ∧ (isUnsignedIntKind target.kind = true →
        jsValueToAny (.number q) target = .ok (.uintV (jsUint q)))
    ∧ (isFloatKind target.kind = true →
        jsValueToAny (.number q) target = .ok (.floatV q))
    ∧ (isSignedIntKind target.kind = false → isUnsignedIntKind target.kind = false →
        isFloatKind target.kind = false →
        jsValueToAny (.number q) target = .ok (.floatV q)) := by
  obtain ⟨n, k⟩ := target
  cases k <;>
    simp [jsValueToAny, isSignedIntKind, isUnsignedIntKind, isFloatKind]

/-- The rational 3.7, built with explicit numerator and denominator. -/
def q3p7 : ℚ := Rat.mk' 37 10 (by decide) (by decide)

/-- Witness for C6: `3.7` against a 32-bit signed-integer target yields
`3`; against a floating target it stays `3.7`. -/
theorem c6_witness :
    jsValueToAny (.number q3p7) ⟨"int32", .rint32⟩ = .ok (.intV 3)
    ∧ jsValueToAny (.number q3p7) ⟨"float64", .rfloat64⟩
        = .ok (.floatV q3p7) := by
  constructor
  · have h := (c6_numeric_conversion_by_kind q3p7 ⟨"int32", .rint32⟩).1 rfl
    rw [h]
    have h3 : jsInt q3p7 = 3 := by decide
    rw [h3]
  · exact (c6_numeric_conversion_by_kind q3p7 ⟨"float64", .rfloat64⟩).2.2.1 rfl

/-- A concrete stand-in for the external formatter collaborator, used only
to evaluate two concrete generation runs. -/
def renderPkgName : File → String := fun f => "package " ++ f.name ++ "\n"

/-- **C8** (counterexample): two runs on the same source and mode, one
second apart, produce different bytes — the provenance header embeds the
wall-clock generation time. -/
theorem c8_counterexample_timestamp :
    writeCombinedOutput renderPkgName ⟨"functions", []⟩ ⟨"main", []⟩ .server
        "2024-06-01" "12:00:00"
      ≠ writeCombinedOutput renderPkgName ⟨"functions", []⟩ ⟨"main", []⟩ .server
        "2024-06-01" "12:00:01" := by
  decide

/-- **C8 (amended)**: for a fixed (source, mode) the artifact is the
provenance header — which embeds the run's date and time — followed by a
body that is a pure function of (source, mode); runs at the same timestamp
are byte-identical. -/
theorem c8_output_pure_modulo_header (render : File → String)
    (tree gen : File) (gt : GenType) :
    ∃ body : String,
      body = render (combineTree tree gen gt)
      ∧ ∀ date clock, writeCombinedOutput render tree gen gt date clock
          = provenanceHeader gt date clock ++ body :=
  ⟨render (combineTree tree gen gt), rfl, fun _ _ => rfl⟩

/-- **C9**: the conversion routine erases the declared integer width — a
numeric value converted against any signed-integer kind has dynamic type
`int`, against any unsigned-integer kind dynamic type `uint` — so the
bridge wrapper's subsequent type assertion against a non-default integer
width always fails and the native proxy is never called. -/
theorem c9_integer_width_erased (q : ℚ) (target : RType)
    (tm : List (String × TypeExpr)) (pname t : String) (info : FuncInfo) :
    (isSignedIntKind target.kind = true →
        (jsValueToAny (.number q) target).map GoVal.dynTypeName = .ok "int")
    ∧ (isUnsignedIntKind target.kind = true →
        (jsValueToAny (.number q) target).map GoVal.dynTypeName = .ok "uint")
    ∧ (t ∈ (["int8", "int16", "int32", "int64",
             "uint8", "uint16", "uint32", "uint64"] : List String) →
        info.params = [⟨some pname, .ident t, false⟩] →
        wrapperRun tm info [.number q]
          = .jsError ("parameter '" ++ pname ++ "' is not in the received arguments")
        ∧ ∀ n args, wrapperRun tm info [.number q] ≠ .callNative n args) := by
  refine ⟨?_, ?_, ?_⟩
  · intro hk
    obtain ⟨n0, k⟩ := target
    cases k <;>
      simp_all [jsValueToAny, isSignedIntKind, GoVal.dynTypeName, Except.map]
  · intro hk
    obtain ⟨n0, k⟩ := target
    cases k <;>
      simp_all [jsValueToAny, isUnsignedIntKind, GoVal.dynTypeName, Except.map]
  · intro ht hp
    obtain ⟨fn, ps, rs⟩ := info
    simp only at hp
    subst hp
    fin_cases ht <;>
      exact ⟨rfl, fun n args hc => nomatch hc⟩

/-- Witness for C9: `3.7` converted and asserted against an `int32`
parameter: the wrapper errors and never dispatches. -/
theorem c9_witness :
    wrapperRun [] ⟨"F", [⟨some "n", .ident "int32", false⟩], []⟩
        [.number q3p7]
      = .jsError "parameter 'n' is not in the received arguments" := by
  exact ((c9_integer_width_erased q3p7 ⟨"int32", .rint32⟩ [] "n" "int32"
    ⟨"F", [⟨some "n", .ident "int32", false⟩], []⟩).2.2 (by decide) rfl).1

/-- **C10**: with several string-typed (or several error-typed) results,
the generated dispatcher uses only the last in declaration order: the last
string-typed result is the reply and only the last error-typed result is
checked for non-nil; earlier ones are dropped from the reply. -/
theorem c10_last_string_and_last_error_win (tm : List (String × TypeExpr))
    (infos : List FuncInfo) (impl : String → List GoVal → List GoVal)
    (fname : String) (args : List (String × Argument)) (info : FuncInfo)
    (vals rets : List GoVal)
    (h1 : infos.find? (fun i => i.originalIdentifier == fname) = some info)
    (h2 : decodeParams tm info.params args = .ok vals)
    (hrets : rets = padResults info.results.length
        (impl (modifiedName info.originalIdentifier) vals))
    (ss ss' : List ParamReflectInfo) (s : ParamReflectInfo)
    (hsplit : info.results = ss ++ s :: ss')
    (hs : s.type.identName = "string")
    (hss' : ∀ x ∈ ss', x.type.identName ≠ "string") :
    (lastIdxWhere (fun r => r.type.identName == "error") info.results = none →
        dispatch tm infos impl fname args
          = (.ok (getStr (rets.getD ss.length .nilV)),
             [(modifiedName info.originalIdentifier, vals)]))
    ∧ ∀ (es es' : List ParamReflectInfo) (e : ParamReflectInfo),
        info.results = es ++ e :: es' →
        e.type.identName = "error" →
        (∀ x ∈ es', x.type.identName ≠ "error") →
        (rets.getD es.length .nilV).isNilInterface = true →
        dispatch tm infos impl fname args
          = (.ok (getStr (rets.getD ss.length .nilV)),
             [(modifiedName info.originalIdentifier, vals)]) := by
  have hne : info.results ≠ [] := by
    rw [hsplit]
    simp
  have hstr : lastIdxWhere (fun r => r.type.identName == "string") info.results
      = some ss.length := by
    rw [hsplit]
    exact lastIdxWhere_last_match _ ss ss' s (by simp [hs])
      (fun x hx => by simp [hss' x hx])
  have hd := dispatch_formatReply tm infos impl fname args info vals h1 h2 hne
  subst hrets
  constructor
  · intro herr
    rw [hd]
    unfold formatReply
    rw [herr]
    simp [hstr]
  · intro es es' e hesplit he hes' hnil
    have herr : lastIdxWhere (fun r => r.type.identName == "error") info.results
        = some es.length := by
      rw [hesplit]
      exact lastIdxWhere_last_match _ es es' e (by simp [he])
        (fun x hx => by simp [hes' x hx])
    rw [hd]
    unfold formatReply
    rw [herr]
    simp only [List.getD_eq_getElem?_getD] at hnil
    simp [hnil, hstr]

/-- A fixture with duplicated string- and error-typed results:
`Multi() (string, string, error, error)`. -/
def multiFile : File :=
  ⟨"functions",
   [ .funcDecl ⟨"Multi", some [],
       some [⟨[], .ident "string"⟩, ⟨[], .ident "string"⟩,
             ⟨[], .ident "error"⟩, ⟨[], .ident "error"⟩]⟩ ]⟩

def multiCatalog : List FuncInfo := extractFuncInfo multiFile []

/-- An implementation whose earlier error result is non-nil and whose last
error result is nil. -/
def multiImpl : String → List GoVal → List GoVal := fun _ _ =>
  [.strV "first", .strV "second", .errV "boom", .nilErr]

/-- Witness for C10: the reply is the LAST string result ("second");
"first" is dropped and the non-nil earlier error "boom" is ignored because
only the last error result is checked. -/
theorem c10_witness :
    dispatch [] multiCatalog multiImpl "Multi" []
      = (.ok "second", [("agrows_Multi", [])]) := by
  exact (c10_last_string_and_last_error_win [] multiCatalog multiImpl "Multi" []
      (multiCatalog.getD 0 infoSayHello) [] [.strV "first", .strV "second", .errV "boom", .nilErr]
      rfl rfl rfl
      [⟨none, .ident "string", false⟩] [⟨none, .ident "error", false⟩, ⟨none, .ident "error", false⟩]
      ⟨none, .ident "string", false⟩ rfl rfl (by decide)).2
    [⟨none, .ident "string", false⟩, ⟨none, .ident "string", false⟩, ⟨none, .ident "error", false⟩]
    [] ⟨none, .ident "error", false⟩ rfl rfl (by decide) rfl

end Agrows
